import Mathlib

/-!
Verification of `src/tools/checkteamtags/extract_components.py` (Python 2).

The script's `main` reads command-line options, calls
`aggregate_components_from_owners` (defined in the module `owners_file_tags`,
which is not part of this repository snapshot; `main` is parametric in its
four results `mappings, warnings, errors, stats`), optionally prints warnings,
always prints errors, optionally displays coverage statistics, inserts the
`AAA-README` provenance entry, serializes the mapping with
`json.dumps(..., sort_keys=True, indent=2)` and either writes it to a file or
prints it, returning `len(errors)` as the exit code.

The embedding is pure: every `print` and file write of the script becomes an
`Effect` value emitted in program order, and `main` becomes a function from
its inputs to `List Effect × Nat` (effects, exit code).  Python truthiness of
optparse values (`None`/`0`/`""` falsy) is modelled explicitly.  The only
floating-point computation, `"{0:.2f}".format(100.0 * num / total)`, is
modelled as exact rational arithmetic rounded half-up to a hundredth of a
percent; the claims under study depend only on the `"N/A"` branch, never on
the rounded digits.
-/

/-- Command-line options of the script, as produced by `optparse`.
`store_true` flags are booleans (Python `None`/`True` collapsed to
`false`/`true`); `output_file` is `none` when `-o` is absent, and
`stat_coverage` is `none` when `-s` is absent. -/
structure Options where
  write : Bool
  verbose : Bool
  force_print : Bool
  output_file : Option String
  complete_coverage : Bool
  stat_coverage : Option Int
deriving DecidableEq, Repr

/-- Python truthiness of an optional string: `None` and `""` are falsy. -/
def strTruthy : Option String → Bool
  | none => false
  | some s => s ≠ ""

/-- Python truthiness of an optional integer: `None` and `0` are falsy. -/
def intTruthy : Option Int → Bool
  | none => false
  | some n => n ≠ 0

/-- The statistics dictionary produced by the `owners_file_tags` module, with
one field per key read by `display_stat` (`OWNERS-count`,
`OWNERS-with-component-only-count`, `OWNERS-with-team-and-component-count`
and their `-by-depth` list variants). -/
structure Stats where
  owners_count : Nat
  owners_with_component_only_count : Nat
  owners_with_team_and_component_count : Nat
  owners_count_by_depth : List Nat
  owners_with_component_only_count_by_depth : List Nat
  owners_with_team_and_component_count_by_depth : List Nat
deriving DecidableEq, Repr

/-- Decimal digit characters of `n`, most significant first; `fuel` bounds the
recursion and is always sufficient at the call site in `natChars`. -/
def natCharsAux : Nat → Nat → List Char
  | 0, _ => []
  | fuel + 1, n =>
    if n < 10 then [Nat.digitChar n]
    else natCharsAux fuel (n / 10) ++ [Nat.digitChar (n % 10)]

/-- Decimal rendering of a natural number as characters. -/
def natChars (n : Nat) : List Char := natCharsAux (n + 1) n

/-- Render `h` hundredths as a fixed two-decimal string, e.g. `4250 ↦ "42.50"`:
the shape produced by Python's `"{0:.2f}".format`. -/
def formatFixed2 (h : Nat) : String :=
  String.mk (natChars (h / 100) ++ '.' ::
    [Nat.digitChar (h % 100 / 10), Nat.digitChar (h % 10)])

/-- `100.0 * num / total` in hundredths of a unit, rounded half-up: the exact
rational counterpart of the script's float percentage. Only meaningful for
`total > 0`. -/
def pctHundredths (num total : Nat) : Nat :=
  (20000 * num / total + 1) / 2

/-- The percentage string computed in `display_stat`: initialised to `"N/A"`
and overwritten with the formatted value only when the total is positive. -/
def pct_string (num total : Nat) : String :=
  if 0 < total then formatFixed2 (pctHundredths num total) else "N/A"

/-- One iteration of the per-depth loop of `display_stat`: the three counts
printed for a depth together with the two percentage strings. -/
structure DepthStat where
  depth : Nat
  total : Nat
  withComponent : Nat
  pctComponent : String
  withTeamComponent : Nat
  pctTeamComponent : String
deriving DecidableEq, Repr

/-- Everything `display_stat` prints, structured: the overall totals and
percentages followed by one `DepthStat` per loop iteration, in print order.
(The directory-root header line carries no data and is omitted.) -/
structure StatReport where
  fileTotal : Nat
  withComponent : Nat
  pctComponent : String
  withTeamComponent : Nat
  pctTeamComponent : String
  depths : List DepthStat
deriving DecidableEq, Repr

/-- The number of depth levels displayed: `len(stats['OWNERS-count-by-depth'])`
unless `options.stat_coverage > 0 and options.stat_coverage <` that length
(in Python 2 `None > 0` is `False`, so an absent `-s` leaves the default). -/
def num_output_depth (stats : Stats) (options : Options) : Nat :=
  let m := stats.owners_count_by_depth.length
  match options.stat_coverage with
  | none => m
  | some l => if 0 < l ∧ l < (m : Int) then l.toNat else m

/-- The per-depth figures printed for one `depth` value: list indexing
`stats[...][depth]` modelled with `getD` (in every reachable call the index is
below the list length). -/
def depthStatAt (stats : Stats) (depth : Nat) : DepthStat :=
  let t := stats.owners_count_by_depth.getD depth 0
  { depth := depth
    total := t
    withComponent := stats.owners_with_component_only_count_by_depth.getD depth 0
    pctComponent :=
      pct_string (stats.owners_with_component_only_count_by_depth.getD depth 0) t
    withTeamComponent :=
      stats.owners_with_team_and_component_count_by_depth.getD depth 0
    pctTeamComponent :=
      pct_string (stats.owners_with_team_and_component_count_by_depth.getD depth 0) t }

/-- `display_stat(stats, root, options)` as a pure function returning what it
prints. -/
def display_stat (stats : Stats) (options : Options) : StatReport :=
  { fileTotal := stats.owners_count
    withComponent := stats.owners_with_component_only_count
    pctComponent := pct_string stats.owners_with_component_only_count stats.owners_count
    withTeamComponent := stats.owners_with_team_and_component_count
    pctTeamComponent :=
      pct_string stats.owners_with_team_and_component_count stats.owners_count
    depths := (List.range (num_output_depth stats options)).map (depthStatAt stats) }

/-- The `_README` constant: the triple-quoted provenance notice split into
lines (the leading newline of the literal yields the leading empty line). -/
def _README : List String :=
  ["",
   "This file is generated by src/tools/checkteamtags/extract_components.py",
   "by parsing the contents of OWNERS files throughout the chromium source code and",
   "extracting `# TEAM:` and `# COMPONENT:` tags.",
   "",
   "Manual edits of this file will be overwritten by an automated process."]

/-- Python dict assignment `d[k] = v`: replace in place when the key exists,
append otherwise. -/
def dictSet (m : List (String × List String)) (k : String) (v : List String) :
    List (String × List String) :=
  if m.any (fun p => p.1 = k) then
    m.map (fun p => if p.1 = k then (k, v) else p)
  else m ++ [(k, v)]

/-- Hexadecimal digit character (lowercase), as in Python's `\uXXXX` escapes. -/
def hexChar (n : Nat) : Char :=
  if n < 10 then Char.ofNat (48 + n) else Char.ofNat (87 + n)

/-- A `\uXXXX` escape for a 16-bit code unit. -/
def uEscape (n : Nat) : List Char :=
  ['\\', 'u', hexChar (n / 4096 % 16), hexChar (n / 256 % 16),
   hexChar (n / 16 % 16), hexChar (n % 16)]

/-- Escaping of one character by `json.dumps` with its default
`ensure_ascii=True`: named escapes, printable ASCII verbatim, everything else
as `\uXXXX` (surrogate pairs beyond the BMP). -/
def jsonEscapeChar (c : Char) : List Char :=
  if c = '\\' then ['\\', '\\']
  else if c = '"' then ['\\', '"']
  else if c = '\n' then ['\\', 'n']
  else if c = '\r' then ['\\', 'r']
  else if c = '\t' then ['\\', 't']
  else if c.toNat = 8 then ['\\', 'b']
  else if c.toNat = 12 then ['\\', 'f']
  else if 32 ≤ c.toNat ∧ c.toNat ≤ 126 then [c]
  else if c.toNat < 65536 then uEscape c.toNat
  else uEscape (55296 + (c.toNat - 65536) / 1024) ++
       uEscape (56320 + (c.toNat - 65536) % 1024)

/-- A JSON string literal for `s`. -/
def jsonString (s : String) : String :=
  String.mk ('"' :: (s.data.map jsonEscapeChar).flatten ++ ['"'])

/-- A JSON array of strings as `json.dumps` renders it with `indent=2` when the
array sits at nesting depth 1: elements on their own lines indented four
spaces, closing bracket indented two; an empty array stays `[]`. -/
def jsonStringArray (xs : List String) : String :=
  match xs with
  | [] => "[]"
  | _ => "[\n" ++
      String.intercalate ",\n" (xs.map (fun x => "    " ++ jsonString x)) ++
      "\n  ]"

/-- Key order used by `json.dumps(..., sort_keys=True)`. -/
def keyLE (a b : String × List String) : Prop := a.1 ≤ b.1

instance : DecidableRel keyLE := fun a b => inferInstanceAs (Decidable (a.1 ≤ b.1))

/-- The entries of the dict in the order `json.dumps(..., sort_keys=True)`
emits them: sorted by key. -/
def sortedEntries (m : List (String × List String)) : List (String × List String) :=
  List.insertionSort keyLE m

/-- `json.dumps(m, sort_keys=True, indent=2)` for a dict mapping strings to
lists of strings: a pretty-printed object, keys sorted, entries indented two
spaces. -/
def json_dumps_sorted_indent2 (m : List (String × List String)) : String :=
  match sortedEntries m with
  | [] => "\x7b\x7d"
  | es => "\x7b\n" ++
      String.intercalate ",\n"
        (es.map (fun e => "  " ++ jsonString e.1 ++ ": " ++ jsonStringArray e.2)) ++
      "\n\x7d"

/-- `mapping_file_contents` as computed in `main`: insert the `AAA-README`
provenance entry, then serialize. -/
def mapping_file_contents (mappings : List (String × List String)) : String :=
  json_dumps_sorted_indent2 (dictSet mappings "AAA-README" _README)

/-- The filename `write_results` actually opens: the argument unless it is
falsy (`None` or `""`), in which case the default `component_map.json`. -/
def write_results_name (filename : Option String) : String :=
  match filename with
  | none => "component_map.json"
  | some s => if s = "" then "component_map.json" else s

/-- One observable output action of `main`, in program order: a line printed
to stdout or a file write. -/
inductive Effect where
  | printWarning (w : String)
  | printError (e : String)
  | printStats (r : StatReport)
  | printNotWriting
  | printMappings (s : String)
  | writeFile (name : String) (contents : String)
deriving DecidableEq, Repr

/-- Recognizer for warning prints. -/
def Effect.isPrintWarning : Effect → Bool
  | .printWarning _ => true
  | _ => false

/-- Recognizer for error prints. -/
def Effect.isPrintError : Effect → Bool
  | .printError _ => true
  | _ => false

/-- Recognizer for file writes. -/
def Effect.isWriteFile : Effect → Bool
  | .writeFile _ _ => true
  | _ => false

/-- The final `if options.write or options.output_file:` block of `main`. -/
def out_effects (options : Options) (errors : List String) (contents : String) :
    List Effect :=
  if options.write || strTruthy options.output_file then
    if errors.isEmpty then
      [Effect.writeFile (write_results_name options.output_file) contents]
    else
      Effect.printNotWriting ::
        (if options.force_print then [Effect.printMappings contents] else [])
  else [Effect.printMappings contents]

/-- `main` after `aggregate_components_from_owners` has returned
`(mappings, warnings, errors, stats)`: the emitted effects in program order
and the returned exit code `len(errors)`. -/
def mainRun (options : Options) (mappings : List (String × List String))
    (warnings errors : List String) (stats : Stats) : List Effect × Nat :=
  let warningEffects :=
    if options.verbose then warnings.map Effect.printWarning else []
  let errorEffects := errors.map Effect.printError
  let statEffects :=
    if intTruthy options.stat_coverage || options.complete_coverage then
      [Effect.printStats (display_stat stats options)]
    else []
  let contents := mapping_file_contents mappings
  (warningEffects ++ errorEffects ++ statEffects ++
     out_effects options errors contents,
   errors.length)

/-! ### Helper lemmas about the effect stream -/

theorem filter_isPrintWarning_map_printWarning (l : List String) :
    (l.map Effect.printWarning).filter Effect.isPrintWarning = l.map Effect.printWarning := by
  induction l with
  | nil => rfl
  | cons a t ih => simp [List.filter_cons, Effect.isPrintWarning, ih]

theorem filter_isPrintWarning_map_printError (l : List String) :
    (l.map Effect.printError).filter Effect.isPrintWarning = [] := by
  induction l with
  | nil => rfl
  | cons a t ih => simp [List.filter_cons, Effect.isPrintWarning, ih]

theorem filter_isPrintError_map_printError (l : List String) :
    (l.map Effect.printError).filter Effect.isPrintError = l.map Effect.printError := by
  induction l with
  | nil => rfl
  | cons a t ih => simp [List.filter_cons, Effect.isPrintError, ih]

theorem filter_isPrintError_map_printWarning (l : List String) :
    (l.map Effect.printWarning).filter Effect.isPrintError = [] := by
  induction l with
  | nil => rfl
  | cons a t ih => simp [List.filter_cons, Effect.isPrintError, ih]

theorem filter_isPrintWarning_out_effects (options : Options) (errors : List String)
    (contents : String) :
    (out_effects options errors contents).filter Effect.isPrintWarning = [] := by
  unfold out_effects
  split
  · split
    · rfl
    · split <;> rfl
  · rfl

theorem filter_isPrintError_out_effects (options : Options) (errors : List String)
    (contents : String) :
    (out_effects options errors contents).filter Effect.isPrintError = [] := by
  unfold out_effects
  split
  · split
    · rfl
    · split <;> rfl
  · rfl

/-- C2: For every run, the exit code returned by `main` is the number of
accumulated errors, hence zero exactly when no errors were accumulated. -/
theorem exit_code_counts_errors (options : Options)
    (mappings : List (String × List String)) (warnings errors : List String)
    (stats : Stats) :
    (mainRun options mappings warnings errors stats).2 = errors.length ∧
      ((mainRun options mappings warnings errors stats).2 = 0 ↔ errors = []) := by
  refine ⟨rfl, ?_⟩
  show errors.length = 0 ↔ errors = []
  exact List.length_eq_zero

theorem filter_isPrintWarning_statEffects (b : Bool) (r : StatReport) :
    (if b = true then [Effect.printStats r] else []).filter Effect.isPrintWarning = [] := by
  cases b <;> rfl

theorem filter_isPrintError_statEffects (b : Bool) (r : StatReport) :
    (if b = true then [Effect.printStats r] else []).filter Effect.isPrintError = [] := by
  cases b <;> rfl

/-- C8: The accumulated warnings are printed to standard output exactly when
the verbose flag is requested: the warning prints in the effect stream are the
warning list when `verbose` is set and nothing otherwise. -/
theorem warnings_printed_iff_verbose (options : Options)
    (mappings : List (String × List String)) (warnings errors : List String)
    (stats : Stats) :
    (mainRun options mappings warnings errors stats).1.filter Effect.isPrintWarning =
      if options.verbose then warnings.map Effect.printWarning else [] := by
  unfold mainRun
  simp only [List.filter_append, filter_isPrintWarning_map_printError,
    filter_isPrintWarning_out_effects, filter_isPrintWarning_statEffects,
    List.append_nil, List.nil_append]
  cases hv : options.verbose
  · rfl
  · exact filter_isPrintWarning_map_printWarning warnings

/-- C9: Every accumulated error is printed to standard output unconditionally:
for any combination of flags, the error prints in the effect stream are
exactly the error list. -/
theorem errors_always_printed (options : Options)
    (mappings : List (String × List String)) (warnings errors : List String)
    (stats : Stats) :
    (mainRun options mappings warnings errors stats).1.filter Effect.isPrintError =
      errors.map Effect.printError := by
  unfold mainRun
  simp only [List.filter_append, filter_isPrintError_map_printError,
    filter_isPrintError_out_effects, filter_isPrintError_statEffects,
    List.append_nil, List.nil_append]
  cases hv : options.verbose
  · rfl
  · simp [filter_isPrintError_map_printWarning]


theorem mainRun_fst (options : Options) (mappings : List (String × List String))
    (warnings errors : List String) (stats : Stats) :
    (mainRun options mappings warnings errors stats).1 =
      (if options.verbose then warnings.map Effect.printWarning else []) ++
        (errors.map Effect.printError ++
          ((if intTruthy options.stat_coverage || options.complete_coverage then
              [Effect.printStats (display_stat stats options)] else []) ++
            out_effects options errors (mapping_file_contents mappings))) := by
  unfold mainRun
  simp [List.append_assoc]

theorem writeFile_mem_mainRun_iff (options : Options)
    (mappings : List (String × List String)) (warnings errors : List String)
    (stats : Stats) (name c : String) :
    (Effect.writeFile name c ∈ (mainRun options mappings warnings errors stats).1 ↔
      Effect.writeFile name c ∈
        out_effects options errors (mapping_file_contents mappings)) := by
  rw [mainRun_fst]
  simp only [List.mem_append, List.mem_map]
  constructor
  · rintro (h | h | h | h)
    · split at h
      · rcases List.mem_map.mp h with ⟨w, _, hw⟩
        cases hw
      · cases h
    · rcases h with ⟨w, _, hw⟩
      cases hw
    · split at h
      · cases List.mem_singleton.mp h
      · cases h
    · exact h
  · intro h
    exact Or.inr (Or.inr (Or.inr h))

theorem writeFile_mem_out_effects_iff (options : Options) (errors : List String)
    (contents name c : String)
    (hreq : (options.write || strTruthy options.output_file) = true) :
    (Effect.writeFile name c ∈ out_effects options errors contents ↔
      errors = [] ∧ name = write_results_name options.output_file ∧ c = contents) := by
  unfold out_effects
  rw [if_pos hreq]
  by_cases he : errors = []
  · rw [if_pos (by simp [he])]
    simp [he, eq_comm]
  · rw [if_neg (by simpa [List.isEmpty_iff] using he)]
    simp only [List.mem_cons]
    constructor
    · rintro (h | h)
      · cases h
      · split at h
        · cases List.mem_singleton.mp h
        · cases h
    · rintro ⟨h, -, -⟩
      exact absurd h he

/-- C1: When writing was requested (write flag or output-file path), the JSON
mapping document is written to a file exactly when the accumulated error list
is empty; with errors present the force flag instead forces the mapping to be
printed to standard output, and the error list itself is printed to standard
output. -/
theorem write_gated_on_errors (options : Options)
    (mappings : List (String × List String)) (warnings errors : List String)
    (stats : Stats)
    (hreq : (options.write || strTruthy options.output_file) = true) :
    ((∃ name c, Effect.writeFile name c ∈
        (mainRun options mappings warnings errors stats).1) ↔ errors = []) ∧
    (errors ≠ [] → options.force_print = true →
      Effect.printMappings (mapping_file_contents mappings) ∈
        (mainRun options mappings warnings errors stats).1) ∧
    (∀ e ∈ errors, Effect.printError e ∈
        (mainRun options mappings warnings errors stats).1) := by
  refine ⟨⟨?_, ?_⟩, ?_, ?_⟩
  · rintro ⟨name, c, hmem⟩
    exact ((writeFile_mem_out_effects_iff options errors
      (mapping_file_contents mappings) name c hreq).mp
      ((writeFile_mem_mainRun_iff options mappings warnings errors stats name c).mp
        hmem)).1
  · intro he
    refine ⟨write_results_name options.output_file, mapping_file_contents mappings,
      (writeFile_mem_mainRun_iff options mappings warnings errors stats _ _).mpr ?_⟩
    exact (writeFile_mem_out_effects_iff options errors
      (mapping_file_contents mappings) _ _ hreq).mpr ⟨he, rfl, rfl⟩
  · intro hne hf
    rw [mainRun_fst]
    refine List.mem_append.mpr (Or.inr (List.mem_append.mpr (Or.inr
      (List.mem_append.mpr (Or.inr ?_)))))
    unfold out_effects
    rw [if_pos hreq, if_neg (by simpa [List.isEmpty_iff] using hne)]
    refine List.mem_cons.mpr (Or.inr ?_)
    rw [if_pos hf]
    exact List.mem_singleton.mpr rfl
  · intro e he
    rw [mainRun_fst]
    refine List.mem_append.mpr (Or.inr (List.mem_append.mpr (Or.inl ?_)))
    exact List.mem_map.mpr ⟨e, he, rfl⟩

/-- C1 witness: with the write flag and force flag set and one error
accumulated, the mapping is still printed to standard output. -/
theorem write_gated_on_errors_witness :
    Effect.printMappings (mapping_file_contents [("C", ["t@x.org"])]) ∈
      (mainRun ⟨true, false, true, none, false, none⟩ [("C", ["t@x.org"])]
        [] ["bad tag"] ⟨0, 0, 0, [], [], []⟩).1 :=
  (write_gated_on_errors ⟨true, false, true, none, false, none⟩
      [("C", ["t@x.org"])] [] ["bad tag"] ⟨0, 0, 0, [], [], []⟩ rfl).2.1
    (by decide) rfl

/-- C7: An output-file path given on the command line triggers the write
branch by itself: even with the write flag unset, when no errors were
accumulated the document is written to that file. -/
theorem output_file_implies_write (options : Options)
    (mappings : List (String × List String)) (warnings errors : List String)
    (stats : Stats)
    (ho : strTruthy options.output_file = true) (hw : options.write = false)
    (he : errors = []) :
    Effect.writeFile (write_results_name options.output_file)
        (mapping_file_contents mappings) ∈
      (mainRun options mappings warnings errors stats).1 :=
  (writeFile_mem_mainRun_iff options mappings warnings errors stats _ _).mpr
    ((writeFile_mem_out_effects_iff options errors (mapping_file_contents mappings)
        _ _ (by rw [hw, ho]; rfl)).mpr ⟨he, rfl, rfl⟩)

/-- C7 witness: with only `-o out.json` (write flag unset) and no errors, the
file is written. -/
theorem output_file_implies_write_witness :
    Effect.writeFile (write_results_name (some "out.json"))
        (mapping_file_contents [("C", ["t@x.org"])]) ∈
      (mainRun ⟨false, false, false, some "out.json", false, none⟩
        [("C", ["t@x.org"])] [] [] ⟨0, 0, 0, [], [], []⟩).1 :=
  output_file_implies_write ⟨false, false, false, some "out.json", false, none⟩
    [("C", ["t@x.org"])] [] [] ⟨0, 0, 0, [], [], []⟩ rfl rfl rfl

/-- C10: With the write flag set and no output-file path, the document is
written to the fixed default filename `component_map.json`; `write_results`
substitutes that default whenever its filename argument is falsy (`None` or
the empty string). -/
theorem write_default_filename (options : Options)
    (mappings : List (String × List String)) (warnings errors : List String)
    (stats : Stats)
    (hw : options.write = true) (ho : options.output_file = none)
    (he : errors = []) :
    Effect.writeFile "component_map.json" (mapping_file_contents mappings) ∈
        (mainRun options mappings warnings errors stats).1 ∧
      write_results_name none = "component_map.json" ∧
      write_results_name (some "") = "component_map.json" := by
  refine ⟨?_, rfl, rfl⟩
  have h := (writeFile_mem_mainRun_iff options mappings warnings errors stats
      (write_results_name options.output_file) (mapping_file_contents mappings)).mpr
    ((writeFile_mem_out_effects_iff options errors (mapping_file_contents mappings)
        _ _ (by rw [hw]; rfl)).mpr ⟨he, rfl, rfl⟩)
  rwa [ho] at h

/-- C10 witness: a run with `-w` only writes `component_map.json`. -/
theorem write_default_filename_witness :
    Effect.writeFile "component_map.json" (mapping_file_contents [("C", ["t@x.org"])]) ∈
        (mainRun ⟨true, false, false, none, false, none⟩
          [("C", ["t@x.org"])] [] [] ⟨0, 0, 0, [], [], []⟩).1 ∧
      write_results_name none = "component_map.json" ∧
      write_results_name (some "") = "component_map.json" :=
  write_default_filename ⟨true, false, false, none, false, none⟩
    [("C", ["t@x.org"])] [] [] ⟨0, 0, 0, [], [], []⟩ rfl rfl rfl

theorem num_output_depth_of_pos (stats : Stats) (options : Options) (L : Nat)
    (hs : options.stat_coverage = some (L : Int)) (hL : 0 < L) :
    num_output_depth stats options = min L stats.owners_count_by_depth.length := by
  unfold num_output_depth
  rw [hs]
  dsimp only
  split
  · rename_i hcond
    have h2 : L < stats.owners_count_by_depth.length := by exact_mod_cast hcond.2
    rw [Int.toNat_natCast]
    omega
  · rename_i hcond
    have h3 : ¬ L < stats.owners_count_by_depth.length := by
      intro hlt
      exact hcond ⟨by exact_mod_cast hL, by exact_mod_cast hlt⟩
    omega

/-- C3: When a positive depth limit `L` is requested via the stat-coverage
option and the observed maximum depth is `M` (the length of the per-depth
count sequence), the coverage report contains exactly the per-depth figure
triples for the depths `0, 1, …, min L M - 1`, in order, each taken from the
statistics at that depth, and the report is printed by `main`. -/
theorem stat_coverage_depth_limit (options : Options)
    (mappings : List (String × List String)) (warnings errors : List String)
    (stats : Stats) (L : Nat)
    (hs : options.stat_coverage = some (L : Int)) (hL : 0 < L) :
    (display_stat stats options).depths =
        (List.range (min L stats.owners_count_by_depth.length)).map
          (depthStatAt stats) ∧
      Effect.printStats (display_stat stats options) ∈
        (mainRun options mappings warnings errors stats).1 := by
  constructor
  · show (List.range (num_output_depth stats options)).map (depthStatAt stats) = _
    rw [num_output_depth_of_pos stats options L hs hL]
  · rw [mainRun_fst]
    refine List.mem_append.mpr (Or.inr (List.mem_append.mpr (Or.inr
      (List.mem_append.mpr (Or.inl ?_)))))
    rw [if_pos]
    · exact List.mem_singleton.mpr rfl
    · have : intTruthy options.stat_coverage = true := by
        rw [hs]
        simp [intTruthy]
        omega
      simp [this]

/-- C3 witness: limit 2 over three observed depth levels leaves exactly the
figures for depths 0 and 1. -/
theorem stat_coverage_depth_limit_witness :
    (display_stat ⟨4, 1, 2, [1, 2, 1], [0, 1, 0], [1, 1, 0]⟩
          ⟨false, false, false, none, false, some 2⟩).depths =
        (List.range (min 2 [1, 2, 1].length)).map
          (depthStatAt ⟨4, 1, 2, [1, 2, 1], [0, 1, 0], [1, 1, 0]⟩) ∧
      Effect.printStats (display_stat ⟨4, 1, 2, [1, 2, 1], [0, 1, 0], [1, 1, 0]⟩
          ⟨false, false, false, none, false, some 2⟩) ∈
        (mainRun ⟨false, false, false, none, false, some 2⟩ [] [] []
          ⟨4, 1, 2, [1, 2, 1], [0, 1, 0], [1, 1, 0]⟩).1 :=
  stat_coverage_depth_limit ⟨false, false, false, none, false, some 2⟩ [] [] []
    ⟨4, 1, 2, [1, 2, 1], [0, 1, 0], [1, 1, 0]⟩ 2 rfl (by decide)

theorem natCharsAux_length_pos (fuel n : Nat) :
    0 < (natCharsAux (fuel + 1) n).length := by
  unfold natCharsAux
  split
  · simp
  · simp

theorem formatFixed2_ne_na (h : Nat) : formatFixed2 h ≠ "N/A" := by
  intro he
  have hlen := congrArg String.length he
  have h1 : (formatFixed2 h).length = (natChars (h / 100)).length + 3 := by
    show (natChars (h / 100) ++ '.' ::
      [Nat.digitChar (h % 100 / 10), Nat.digitChar (h % 10)]).length = _
    simp
  have h2 : ("N/A" : String).length = 3 := rfl
  have h3 : 0 < (natChars (h / 100)).length := natCharsAux_length_pos _ _
  omega

theorem pct_string_eq_na_iff (num total : Nat) :
    pct_string num total = "N/A" ↔ total = 0 := by
  unfold pct_string
  rcases Nat.eq_zero_or_pos total with h | h
  · simp [h]
  · rw [if_pos h]
    constructor
    · intro he
      exact absurd he (formatFixed2_ne_na _)
    · intro h0
      omega

/-- C4: Every percentage in the coverage report — overall and per-depth, for
both figures — is the string `"N/A"` exactly when the corresponding total
count is zero; for positive totals it is a formatted number, never `"N/A"`. -/
theorem pct_na_iff_zero_total (stats : Stats) (options : Options) :
    ((display_stat stats options).pctComponent = "N/A" ↔ stats.owners_count = 0) ∧
    ((display_stat stats options).pctTeamComponent = "N/A" ↔
      stats.owners_count = 0) ∧
    (∀ d ∈ (display_stat stats options).depths,
      (d.pctComponent = "N/A" ↔ d.total = 0) ∧
      (d.pctTeamComponent = "N/A" ↔ d.total = 0)) := by
  refine ⟨pct_string_eq_na_iff _ _, pct_string_eq_na_iff _ _, ?_⟩
  intro d hd
  rcases List.mem_map.mp hd with ⟨i, -, hi⟩
  subst hi
  exact ⟨pct_string_eq_na_iff _ _, pct_string_eq_na_iff _ _⟩

/-- C4 witness: with zero totals (no metadata files at all) both overall
percentages and the depth-0 percentages are `"N/A"`. -/
theorem pct_na_iff_zero_total_witness :
    ((display_stat ⟨0, 0, 0, [0], [0], [0]⟩
        ⟨false, false, false, none, true, none⟩).pctComponent = "N/A") ∧
    ((depthStatAt ⟨0, 0, 0, [0], [0], [0]⟩ 0).pctComponent = "N/A" ↔
      (depthStatAt ⟨0, 0, 0, [0], [0], [0]⟩ 0).total = 0) :=
  ⟨(pct_na_iff_zero_total ⟨0, 0, 0, [0], [0], [0]⟩
      ⟨false, false, false, none, true, none⟩).1.mpr rfl,
   ((pct_na_iff_zero_total ⟨0, 0, 0, [0], [0], [0]⟩
      ⟨false, false, false, none, true, none⟩).2.2
     (depthStatAt ⟨0, 0, 0, [0], [0], [0]⟩ 0) (by decide)).1⟩

/-! ### Sorted serialization: key order, permutation invariance -/

/-- Strict key order on dict entries. -/
def keyLT (a b : String × List String) : Prop := a.1 < b.1

instance : IsTotal (String × List String) keyLE := ⟨fun a b => le_total a.1 b.1⟩

instance : IsTrans (String × List String) keyLE :=
  ⟨fun _ _ _ h1 h2 => le_trans h1 h2⟩

instance : IsAntisymm (String × List String) keyLT :=
  ⟨fun _ _ h1 h2 => absurd h2 (lt_asymm h1)⟩

theorem sorted_keyLT_of_nodup :
    ∀ l : List (String × List String), List.Sorted keyLE l →
      (l.map Prod.fst).Nodup → List.Sorted keyLT l
  | [], _, _ => List.sorted_nil
  | a :: t, hs, hnd => by
    rw [List.sorted_cons] at hs ⊢
    rw [List.map_cons, List.nodup_cons] at hnd
    refine ⟨fun b hb => ?_, sorted_keyLT_of_nodup t hs.2 hnd.2⟩
    have hle : keyLE a b := hs.1 b hb
    have hne : a.1 ≠ b.1 := fun he =>
      hnd.1 (he ▸ List.mem_map.mpr ⟨b, hb, rfl⟩)
    exact lt_of_le_of_ne hle hne

theorem any_eq_of_perm {α : Type} {l₁ l₂ : List α} (h : l₁.Perm l₂)
    (p : α → Bool) : l₁.any p = l₂.any p := by
  cases ha : l₁.any p <;> cases hb : l₂.any p
  · rfl
  · rcases List.any_eq_true.mp hb with ⟨x, hx, hpx⟩
    have := List.any_eq_true.mpr ⟨x, h.mem_iff.mpr hx, hpx⟩
    rw [ha] at this
    cases this
  · rcases List.any_eq_true.mp ha with ⟨x, hx, hpx⟩
    have := List.any_eq_true.mpr ⟨x, h.mem_iff.mp hx, hpx⟩
    rw [hb] at this
    cases this
  · rfl

theorem dictSet_perm (m₁ m₂ : List (String × List String)) (k : String)
    (v : List String) (h : m₁.Perm m₂) : (dictSet m₁ k v).Perm (dictSet m₂ k v) := by
  unfold dictSet
  by_cases hc : m₂.any (fun p => p.1 = k) = true
  · rw [if_pos (by rw [any_eq_of_perm h]; exact hc), if_pos hc]
    exact h.map _
  · rw [if_neg (by rw [any_eq_of_perm h]; exact hc), if_neg hc]
    exact h.append_right _

theorem dictSet_keys_nodup (m : List (String × List String)) (k : String)
    (v : List String) (hnd : (m.map Prod.fst).Nodup) :
    ((dictSet m k v).map Prod.fst).Nodup := by
  unfold dictSet
  by_cases hc : m.any (fun p => p.1 = k) = true
  · rw [if_pos hc, List.map_map]
    have he : m.map (Prod.fst ∘ fun p => if p.1 = k then (k, v) else p) =
        m.map Prod.fst := by
      apply List.map_congr_left
      intro p _
      by_cases hp : p.1 = k
      · simp [hp]
      · simp [hp]
    rw [he]
    exact hnd
  · rw [if_neg hc, List.map_append]
    have hk : k ∉ m.map Prod.fst := by
      intro hmem
      rcases List.mem_map.mp hmem with ⟨p, hp, hpk⟩
      exact hc (List.any_eq_true.mpr ⟨p, hp, by simp [hpk]⟩)
    rw [List.nodup_append]
    exact ⟨hnd, List.nodup_singleton _, by
      intro a ha hb
      rcases List.mem_singleton.mp hb with rfl
      exact hk ha⟩

theorem sortedEntries_perm (m : List (String × List String)) :
    (sortedEntries m).Perm m :=
  List.perm_insertionSort keyLE m

theorem sortedEntries_sorted (m : List (String × List String)) :
    List.Sorted keyLE (sortedEntries m) :=
  List.sorted_insertionSort keyLE m

theorem sortedEntries_eq_of_perm (m₁ m₂ : List (String × List String))
    (h : m₁.Perm m₂) (hnd : (m₁.map Prod.fst).Nodup) :
    sortedEntries m₁ = sortedEntries m₂ := by
  have hp : (sortedEntries m₁).Perm (sortedEntries m₂) :=
    (sortedEntries_perm m₁).trans (h.trans (sortedEntries_perm m₂).symm)
  have hk₁ : ((sortedEntries m₁).map Prod.fst).Nodup :=
    (((sortedEntries_perm m₁).map Prod.fst).nodup_iff).mpr hnd
  have hk₂ : ((sortedEntries m₂).map Prod.fst).Nodup :=
    ((hp.map Prod.fst).nodup_iff).mp hk₁
  exact List.eq_of_perm_of_sorted hp
    (sorted_keyLT_of_nodup _ (sortedEntries_sorted m₁) hk₁)
    (sorted_keyLT_of_nodup _ (sortedEntries_sorted m₂) hk₂)

/-- C5: The serialized JSON document is a deterministic function of the
aggregation result: two runs whose aggregated mappings hold the same
associations (the same dict up to insertion order, keys unduplicated) produce
byte-identical output, since keys are sorted before serialization and the
provenance entry is a fixed constant. -/
theorem json_output_deterministic (m₁ m₂ : List (String × List String))
    (hperm : m₁.Perm m₂) (hnd : (m₁.map Prod.fst).Nodup) :
    mapping_file_contents m₁ = mapping_file_contents m₂ := by
  unfold mapping_file_contents json_dumps_sorted_indent2
  rw [sortedEntries_eq_of_perm (dictSet m₁ "AAA-README" _README)
    (dictSet m₂ "AAA-README" _README)
    (dictSet_perm m₁ m₂ "AAA-README" _README hperm)
    (dictSet_keys_nodup m₁ "AAA-README" _README hnd)]

/-- C5 witness: the same two-component aggregate in either insertion order
serializes to the same bytes. -/
theorem json_output_deterministic_witness :
    mapping_file_contents [("b", ["y@x.com"]), ("a", ["x@x.com"])] =
      mapping_file_contents [("a", ["x@x.com"]), ("b", ["y@x.com"])] :=
  json_output_deterministic [("b", ["y@x.com"]), ("a", ["x@x.com"])]
    [("a", ["x@x.com"]), ("b", ["y@x.com"])] (List.Perm.swap _ _ _) (by decide)

theorem dictSet_mem_self (m : List (String × List String)) (k : String)
    (v : List String) : (k, v) ∈ dictSet m k v := by
  unfold dictSet
  by_cases hc : m.any (fun p => p.1 = k) = true
  · rw [if_pos hc]
    rcases List.any_eq_true.mp hc with ⟨p, hp, hpk⟩
    refine List.mem_map.mpr ⟨p, hp, ?_⟩
    rw [if_pos (by exact of_decide_eq_true hpk)]
  · rw [if_neg hc]
    exact List.mem_append.mpr (Or.inr (List.mem_singleton.mpr rfl))

theorem dictSet_mem_other (m : List (String × List String)) (k : String)
    (v : List String) (k' : String) (v' : List String) (hne : k' ≠ k) :
    ((k', v') ∈ dictSet m k v ↔ (k', v') ∈ m) := by
  unfold dictSet
  by_cases hc : m.any (fun p => p.1 = k) = true
  · rw [if_pos hc]
    constructor
    · intro h
      rcases List.mem_map.mp h with ⟨p, hp, hpe⟩
      by_cases hpk : p.1 = k
      · rw [if_pos hpk] at hpe
        cases hpe
        exact absurd rfl hne
      · rw [if_neg hpk] at hpe
        rw [hpe] at hp
        exact hp
    · intro h
      refine List.mem_map.mpr ⟨(k', v'), h, ?_⟩
      rw [if_neg (by exact hne)]
  · rw [if_neg hc]
    rw [List.mem_append, List.mem_singleton]
    constructor
    · rintro (h | h)
      · exact h
      · cases h
        exact absurd rfl hne
    · exact Or.inl

/-- C6: The emitted JSON document serializes the mapping with keys in strictly
sorted order, contains exactly one reserved `AAA-README` key, whose value is
the array of README/provenance lines, and every other entry of the serialized
object is exactly an entry of the component-to-teams mapping. -/
theorem emitted_json_shape (m : List (String × List String))
    (hnd : (m.map Prod.fst).Nodup) :
    mapping_file_contents m =
        json_dumps_sorted_indent2 (dictSet m "AAA-README" _README) ∧
      List.Sorted keyLT (sortedEntries (dictSet m "AAA-README" _README)) ∧
      ((sortedEntries (dictSet m "AAA-README" _README)).map Prod.fst).count
          "AAA-README" = 1 ∧
      ("AAA-README", _README) ∈ sortedEntries (dictSet m "AAA-README" _README) ∧
      (∀ k v, k ≠ "AAA-README" →
        ((k, v) ∈ sortedEntries (dictSet m "AAA-README" _README) ↔ (k, v) ∈ m)) := by
  have hperm := sortedEntries_perm (dictSet m "AAA-README" _README)
  have hndk : ((dictSet m "AAA-README" _README).map Prod.fst).Nodup :=
    dictSet_keys_nodup m "AAA-README" _README hnd
  have hndk' : ((sortedEntries (dictSet m "AAA-README" _README)).map Prod.fst).Nodup :=
    ((hperm.map Prod.fst).nodup_iff).mpr hndk
  have hmemself : ("AAA-README", _README) ∈
      sortedEntries (dictSet m "AAA-README" _README) :=
    hperm.mem_iff.mpr (dictSet_mem_self m "AAA-README" _README)
  refine ⟨rfl, ?_, ?_, hmemself, ?_⟩
  · exact sorted_keyLT_of_nodup _ (sortedEntries_sorted _) hndk'
  · exact List.count_eq_one_of_mem hndk'
      (List.mem_map.mpr ⟨("AAA-README", _README), hmemself, rfl⟩)
  · intro k v hk
    rw [hperm.mem_iff]
    exact dictSet_mem_other m "AAA-README" _README k v hk

/-- C6 witness: for a one-component mapping, the document is the sorted
serialization, the reserved key appears exactly once with the README lines as
its value. -/
theorem emitted_json_shape_witness :
    mapping_file_contents [("Tools>Test", ["a@x.com"])] =
        json_dumps_sorted_indent2
          (dictSet [("Tools>Test", ["a@x.com"])] "AAA-README" _README) ∧
      ((sortedEntries (dictSet [("Tools>Test", ["a@x.com"])] "AAA-README"
          _README)).map Prod.fst).count "AAA-README" = 1 ∧
      ("AAA-README", _README) ∈ sortedEntries
        (dictSet [("Tools>Test", ["a@x.com"])] "AAA-README" _README) :=
  ⟨(emitted_json_shape [("Tools>Test", ["a@x.com"])] (by decide)).1,
   (emitted_json_shape [("Tools>Test", ["a@x.com"])] (by decide)).2.2.1,
   (emitted_json_shape [("Tools>Test", ["a@x.com"])] (by decide)).2.2.2.1⟩
